import Mathlib

/-!
Verification of the cursor-tracker real-time synchronization core.

The definitions below are a shallow embedding of the program:
* server state and message handlers from src/cursor-tracker/server/server.js
  (pickup, object_move, drop, cursor_move, join, disconnect, reset);
* the throttle and lerp utilities from
  src/cursor-tracker/frontend/utils/math.ts;
* the remote-cursor bookkeeping from
  src/cursor-tracker/frontend/components/CursorLayer.tsx.

JavaScript numbers are modelled as rationals, nullable strings as
Option String, and the socket.io Map objects as association lists keyed
by the id field. Emissions are recorded as a list of (target, payload)
pairs; the target distinguishes socket.emit (unicast to the sender),
socket.broadcast.emit (everyone except the sender) and io.emit
(every connected socket).
-/

namespace CursorTracker

/-- A connected user record, as stored in the servers users map:
`{ id, name, x, y, color, lastUpdate }`. -/
structure User where
  id : String
  name : String
  x : ℚ
  y : ℚ
  color : String
  lastUpdate : ℕ
deriving DecidableEq, Repr

/-- A shared draggable object, as stored in the servers objects map:
`{ id, x, y, width, height, ownerId, color }`; ownerId null means
nobody is dragging it. -/
structure SharedObject where
  id : String
  x : ℚ
  y : ℚ
  width : ℚ
  height : ℚ
  ownerId : Option String
  color : String
deriving DecidableEq, Repr

/-- The whole mutable server state: the users map and the objects map. -/
structure ServerState where
  users : List User
  objects : List SharedObject
deriving DecidableEq, Repr

/-- Destination of one socket.io emission: `toSelf` is socket.emit,
`toBroadcast` is socket.broadcast.emit (all except sender), `toAll` is
io.emit. -/
inductive Target where
  | toSelf
  | toBroadcast
  | toAll
deriving DecidableEq, Repr

/-- Wire payloads the server sends (only the fields the code puts in each
object literal). -/
inductive Payload where
  | cursorUpdate (id : String) (x y ts seq : ℚ) (name color : String)
  | objectUpdate (id : String) (x y : ℚ) (ownerId : Option String)
  | objectReject (objectId reason : String)
  | userJoined (id name : String) (x y : ℚ) (color : String)
  | userLeft (id : String)
  | initFull (userId : String) (users : List User)
      (objects : List SharedObject) (color : String)
  | initObjects (objects : List SharedObject)
deriving DecidableEq, Repr

/-- One emission: a destination together with the payload. -/
structure Emit where
  target : Target
  payload : Payload
deriving DecidableEq, Repr

/-- users.get(sid): first user whose id matches. -/
def findUser (l : List User) (sid : String) : Option User :=
  l.find? (fun u => u.id == sid)

/-- objects.get(oid): first object whose id matches. -/
def findObj (l : List SharedObject) (oid : String) : Option SharedObject :=
  l.find? (fun o => o.id == oid)

/-- In-place mutation of the user stored under a key. -/
def updateUser (l : List User) (sid : String) (f : User → User) : List User :=
  l.map (fun u => if u.id == sid then f u else u)

/-- In-place mutation of the object stored under a key. -/
def updateObj (l : List SharedObject) (oid : String)
    (f : SharedObject → SharedObject) : List SharedObject :=
  l.map (fun o => if o.id == oid then f o else o)

/-- The ids of all connected users. -/
def userIds (st : ServerState) : List String :=
  st.users.map (fun u => u.id)

/-- The set of socket ids that receive an emission made by `sender` in
state `st`, by destination kind. -/
def recipients (st : ServerState) (sender : String) : Target → List String
  | .toSelf => [sender]
  | .toBroadcast => (userIds st).filter (fun i => i ≠ sender)
  | .toAll => userIds st

/-- The three objects installed by initializeObjects() at process start. -/
def initialObjects : List SharedObject :=
  [ { id := "obj-1", x := 200, y := 200, width := 40, height := 40,
      ownerId := none, color := "#FF6B6B" },
    { id := "obj-2", x := 500, y := 300, width := 40, height := 40,
      ownerId := none, color := "#4ECDC4" },
    { id := "obj-3", x := 800, y := 150, width := 40, height := 40,
      ownerId := none, color := "#45B7D1" } ]

/-- Server state right after startup: no users, the three default objects. -/
def initialState : ServerState :=
  { users := [], objects := initialObjects }

/-- The math.ts lerp utility: clamp t to 0..1 and return
start + (end - start) * clampedT. -/
def lerp (start endVal t : ℚ) : ℚ :=
  start + (endVal - start) * max 0 (min 1 t)

/-- The math.ts throttle closure, unfolded over the list of call times:
each call fires exactly when now - lastCall is at least the limit, and a
fired call resets lastCall to now. Returns the times of the calls that
actually executed. The first argument after the limit is the stored
lastCall value (initially 0). -/
def throttleRun (limit : ℕ) : ℕ → List ℕ → List ℕ
  | _, [] => []
  | lastCall, t :: ts =>
    if t - lastCall ≥ limit then t :: throttleRun limit t ts
    else throttleRun limit lastCall ts

/-- Feeding a sequence of call times into a fresh throttle (lastCall = 0). -/
def throttleAccepted (limit : ℕ) (calls : List ℕ) : List ℕ :=
  throttleRun limit 0 calls

/-- The 50 ms throttle interval used by throttledSendCursor. -/
def CURSOR_THROTTLE_MS : ℕ := 50

/-- An incoming cursor_move payload: each field is some number, or none when
the field is missing or not of type number. -/
structure CursorMoveData where
  x : Option ℚ
  y : Option ℚ
  ts : Option ℚ
  seq : Option ℚ
deriving DecidableEq, Repr

/-- isValidCursorUpdate from server.js: all four fields must be numbers and
both coordinates must lie in 0..10000. -/
def isValidCursorUpdate (d : CursorMoveData) : Bool :=
  match d.x, d.y, d.ts, d.seq with
  | some x, some y, some _, some _ =>
      decide (0 ≤ x) && decide (x ≤ 10000) && decide (0 ≤ y) && decide (y ≤ 10000)
  | _, _, _, _ => false

/-- The connection handler body: users.set(socket.id, ...) with a random
color, the default name derived from the id, and position (0, 0). -/
def connectStep (st : ServerState) (sid color : String) (now : ℕ) : ServerState :=
  { st with
    users := st.users ++
      [{ id := sid, name := "User " ++ sid.take 5, x := 0, y := 0,
         color := color, lastUpdate := now }] }

/-- The join handler: apply the name in place when present and truthy, send
the init snapshot to the joiner and announce user_joined to everyone else.
The name argument is none when data.name is missing or otherwise falsy. -/
def joinStep (st : ServerState) (sid : String) (name : Option String) :
    ServerState × List Emit :=
  match findUser st.users sid with
  | none => (st, [])
  | some user =>
    let user' :=
      match name with
      | some n => { user with name := n }
      | none => user
    let users' := updateUser st.users sid (fun _ => user')
    let st' : ServerState := { st with users := users' }
    (st',
     [⟨.toSelf, .initFull sid (users'.filter (fun u => u.id ≠ sid))
        st'.objects user.color⟩,
      ⟨.toBroadcast, .userJoined sid user'.name user'.x user'.y user.color⟩])

/-- The cursor_move handler: drop invalid payloads, drop unknown senders,
otherwise update the senders record and relay the data to everyone else. -/
def cursorMoveHandler (st : ServerState) (sid : String) (d : CursorMoveData)
    (now : ℕ) : ServerState × List Emit :=
  if isValidCursorUpdate d then
    match d.x, d.y, d.ts, d.seq with
    | some x, some y, some ts, some seq =>
      match findUser st.users sid with
      | none => (st, [])
      | some user =>
        ({ st with
           users := updateUser st.users sid
             (fun u => { u with x := x, y := y, lastUpdate := now }) },
         [⟨.toBroadcast,
           .cursorUpdate sid x y ts seq user.name user.color⟩])
    | _, _, _, _ => (st, [])
  else (st, [])

/-- The pickup handler: unknown object is rejected to the requester only;
an object owned by somebody else is rejected to the requester only;
otherwise ownership is granted and the object state is broadcast to all. -/
def pickupHandler (st : ServerState) (sid oid : String) :
    ServerState × List Emit :=
  match findObj st.objects oid with
  | none => (st, [⟨.toSelf, .objectReject oid "Object not found"⟩])
  | some obj =>
    if obj.ownerId ≠ none ∧ obj.ownerId ≠ some sid then
      (st, [⟨.toSelf, .objectReject oid "Object is owned by another user"⟩])
    else
      ({ st with
         objects := updateObj st.objects oid
           (fun o => { o with ownerId := some sid }) },
       [⟨.toAll, .objectUpdate oid obj.x obj.y (some sid)⟩])

/-- The object_move handler: unknown object is silently ignored; a
non-owner gets a unicast rejection; the owner gets the position stored and
broadcast to all. -/
def objectMoveHandler (st : ServerState) (sid oid : String) (x y : ℚ) :
    ServerState × List Emit :=
  match findObj st.objects oid with
  | none => (st, [])
  | some obj =>
    if obj.ownerId ≠ some sid then
      (st, [⟨.toSelf, .objectReject oid "You do not own this object"⟩])
    else
      ({ st with
         objects := updateObj st.objects oid
           (fun o => { o with x := x, y := y }) },
       [⟨.toAll, .objectUpdate oid x y obj.ownerId⟩])

/-- The drop handler: unknown object or non-owner is silently ignored;
the owner gets the final position stored, ownership cleared and the state
broadcast to all. -/
def dropHandler (st : ServerState) (sid oid : String) (x y : ℚ) :
    ServerState × List Emit :=
  match findObj st.objects oid with
  | none => (st, [])
  | some obj =>
    if obj.ownerId ≠ some sid then (st, [])
    else
      ({ st with
         objects := updateObj st.objects oid
           (fun o => { o with x := x, y := y, ownerId := none }) },
       [⟨.toAll, .objectUpdate oid x y none⟩])

/-- The objects.forEach loop of the disconnect handler: release, in map
order, every object owned by the leaving socket, emitting an object_update
for each released object. -/
def releaseOwned (sid : String) : List SharedObject →
    List SharedObject × List Emit
  | [] => ([], [])
  | o :: rest =>
    let r := releaseOwned sid rest
    if o.ownerId = some sid then
      ({ o with ownerId := none } :: r.1,
       ⟨.toAll, .objectUpdate o.id o.x o.y none⟩ :: r.2)
    else (o :: r.1, r.2)

/-- The disconnect handler: delete the user record, release every object it
owned (broadcasting each release), then announce user_left to the others. -/
def disconnectHandler (st : ServerState) (sid : String) :
    ServerState × List Emit :=
  let users' := st.users.filter (fun u => u.id ≠ sid)
  let r := releaseOwned sid st.objects
  ({ users := users', objects := r.1 },
   r.2 ++ [⟨.toBroadcast, .userLeft sid⟩])

/-- The POST /reset endpoint: clear every ownerId and push a fresh object
snapshot to all clients. -/
def resetStep (st : ServerState) : ServerState × List Emit :=
  let objects' := st.objects.map (fun o => { o with ownerId := none })
  ({ st with objects := objects' }, [⟨.toAll, .initObjects objects'⟩])

/-- Every inbound event the server mutates state on. -/
inductive ServerEvent where
  | connect (sid color : String) (now : ℕ)
  | join (sid : String) (name : Option String)
  | cursorMove (sid : String) (d : CursorMoveData) (now : ℕ)
  | pickup (sid oid : String)
  | objectMove (sid oid : String) (x y : ℚ)
  | drop (sid oid : String) (x y : ℚ)
  | disconnect (sid : String)
  | reset

/-- Dispatch of one inbound event to its handler. -/
def serverStep (st : ServerState) : ServerEvent → ServerState × List Emit
  | .connect sid color now => (connectStep st sid color now, [])
  | .join sid name => joinStep st sid name
  | .cursorMove sid d now => cursorMoveHandler st sid d now
  | .pickup sid oid => pickupHandler st sid oid
  | .objectMove sid oid x y => objectMoveHandler st sid oid x y
  | .drop sid oid x y => dropHandler st sid oid x y
  | .disconnect sid => disconnectHandler st sid
  | .reset => resetStep st

/-- Side conditions socket.io guarantees: a connect event carries a fresh
socket id, and every other socket-scoped event comes from a socket that is
currently connected (its connection handler has run and its disconnect
handler has not). -/
def eventOk (st : ServerState) : ServerEvent → Prop
  | .connect sid _ _ => sid ∉ userIds st
  | .join sid _ => sid ∈ userIds st
  | .cursorMove sid _ _ => sid ∈ userIds st
  | .pickup sid _ => sid ∈ userIds st
  | .objectMove sid _ _ _ => sid ∈ userIds st
  | .drop sid _ _ _ => sid ∈ userIds st
  | .disconnect sid => sid ∈ userIds st
  | .reset => True

/-- The server states reachable from startup by any sequence of events. -/
inductive Reachable : ServerState → Prop
  | init : Reachable initialState
  | step (st : ServerState) (e : ServerEvent) :
      Reachable st → eventOk st e → Reachable (serverStep st e).1

/-- The ownership invariant: connected socket ids are pairwise distinct,
and every non-null ownerId is the id of a connected user. -/
def Inv (st : ServerState) : Prop :=
  (userIds st).Nodup ∧
  ∀ o ∈ st.objects, ∀ i, o.ownerId = some i → i ∈ userIds st

/-- Client-side record for one remote cursor, as kept in the
remoteCursorsRef map of CursorLayer.tsx: x and y are the currently
displayed (interpolated) coordinates, prevX/prevY the interpolation start
point, targetX/targetY the last delivered position and lastUpdateTime the
interpolation start time. -/
structure RemoteCursor where
  id : String
  x : ℚ
  y : ℚ
  name : String
  color : String
  targetX : ℚ
  targetY : ℚ
  prevX : ℚ
  prevY : ℚ
  lastUpdateTime : ℚ
deriving DecidableEq, Repr

/-- A cursor_update message as seen by the client; ts is none when the
field is absent. -/
structure CursorUpdateMsg where
  id : String
  x : ℚ
  y : ℚ
  name : String
  color : String
  ts : Option ℚ
deriving DecidableEq, Repr

/-- The JavaScript expression ts || Date.now(): the timestamp field unless
it is absent or zero (falsy), in which case the local clock value. -/
def tsOrNow (ts : Option ℚ) (now : ℚ) : ℚ :=
  match ts with
  | none => now
  | some t => if t = 0 then now else t

/-- cursors.get(id) over the client map. -/
def findCursor (l : List RemoteCursor) (cid : String) : Option RemoteCursor :=
  l.find? (fun c => c.id == cid)

/-- In-place mutation of the cursor stored under a key. -/
def updateCursor (l : List RemoteCursor) (cid : String)
    (f : RemoteCursor → RemoteCursor) : List RemoteCursor :=
  l.map (fun c => if c.id == cid then f c else c)

/-- The cursor_update socket listener of CursorLayer.tsx: an existing
cursor gets prev set to its current displayed position, target set to the
delivered position and lastUpdateTime set to ts || Date.now(); an unseen id
gets a fresh entry with every position field equal to the delivered one. -/
def handleCursorUpdate (cursors : List RemoteCursor) (m : CursorUpdateMsg)
    (now : ℚ) : List RemoteCursor :=
  match findCursor cursors m.id with
  | some existing =>
      updateCursor cursors m.id
        (fun _ => { existing with
          prevX := existing.x, prevY := existing.y,
          targetX := m.x, targetY := m.y,
          lastUpdateTime := tsOrNow m.ts now })
  | none =>
      cursors ++
        [{ id := m.id, x := m.x, y := m.y, name := m.name, color := m.color,
           targetX := m.x, targetY := m.y, prevX := m.x, prevY := m.y,
           lastUpdateTime := tsOrNow m.ts now }]

/-- The client interpolation window in milliseconds. -/
def INTERPOLATION_DURATION : ℚ := 50

/-- One step of the animate loop on a single cursor: progress is
min(elapsed / INTERPOLATION_DURATION, 1) and the displayed coordinates are
the lerp of prev towards target at that progress. -/
def animateCursor (now : ℚ) (c : RemoteCursor) : RemoteCursor :=
  let elapsed : ℚ := now - c.lastUpdateTime
  let progress : ℚ := min (elapsed / INTERPOLATION_DURATION) 1
  { c with
    x := lerp c.prevX c.targetX progress,
    y := lerp c.prevY c.targetY progress }

/-- Demo fixture: connected user A. -/
def userA : User :=
  { id := "A", name := "User A", x := 0, y := 0, color := "#FF6B6B",
    lastUpdate := 0 }

/-- Demo fixture: connected user B. -/
def userB : User :=
  { id := "B", name := "User B", x := 0, y := 0, color := "#4ECDC4",
    lastUpdate := 0 }

/-- Demo fixture: the first default object, currently owned by A. -/
def objOwnedByA : SharedObject :=
  { id := "obj-1", x := 200, y := 200, width := 40, height := 40,
    ownerId := some "A", color := "#FF6B6B" }

/-- Demo fixture: the first default object, unowned. -/
def objFree : SharedObject :=
  { id := "obj-1", x := 200, y := 200, width := 40, height := 40,
    ownerId := none, color := "#FF6B6B" }

/-- Demo server state: users A and B connected, obj-1 owned by A. -/
def demoOwned : ServerState :=
  { users := [userA, userB], objects := [objOwnedByA] }

/-- Demo server state: users A and B connected, obj-1 unowned. -/
def demoFree : ServerState :=
  { users := [userA, userB], objects := [objFree] }

/-- Demo fixture: a remote cursor mid-interpolation (displayed x is 120,
between prev 100 and target 150). -/
def demoCursor : RemoteCursor :=
  { id := "A", x := 120, y := 100, name := "User A", color := "#FF6B6B",
    targetX := 150, targetY := 100, prevX := 100, prevY := 100,
    lastUpdateTime := 60 }

/-- Demo fixture: a cursor_update for A carrying origin timestamp 100. -/
def demoMsg : CursorUpdateMsg :=
  { id := "A", x := 200, y := 100, name := "User A", color := "#FF6B6B",
    ts := some 100 }

/-! ### Shared helper lemmas -/

/-- Looking up a key after an in-place update of that key finds the updated
element; the update function only needs to preserve the key on elements
that carry it. -/
theorem find_after_update {α : Type} (key : α → String) (f : α → α)
    (k : String) (hf : ∀ a, key a = k → key (f a) = k) :
    ∀ l : List α,
      (l.map (fun a => if key a == k then f a else a)).find?
          (fun a => key a == k) =
        (l.find? (fun a => key a == k)).map f
  | [] => rfl
  | a :: l => by
    by_cases h : key a = k
    · have hfa : key (f a) = k := hf a h
      simp [List.find?, h, hfa]
    · simp only [List.map_cons, List.find?]
      have hb : (key a == k) = false := by simp [h]
      rw [if_neg (by simp [h])]
      simp only [hb, cond_false]
      exact find_after_update key f k hf l

/-- An element whose key differs from the updated key is untouched by an
in-place update. -/
theorem mem_after_update_of_ne {α : Type} (key : α → String) (f : α → α)
    (k : String) (a : α) (l : List α) (ha : a ∈ l) (hne : key a ≠ k) :
    a ∈ l.map (fun b => if key b == k then f b else b) :=
  List.mem_map.2 ⟨a, ha, by simp [hne]⟩

/-- An in-place update that preserves the key leaves the list of keys
unchanged. -/
theorem keys_after_update {α : Type} (key : α → String) (f : α → α)
    (k : String) (hf : ∀ a, key a = k → key (f a) = k) (l : List α) :
    (l.map (fun a => if key a == k then f a else a)).map key = l.map key := by
  rw [List.map_map]
  refine List.map_congr_left ?_
  intro a _
  by_cases h : key a = k
  · simp [Function.comp, h, hf a h]
  · simp [Function.comp, h]

/-- A successful lookup returns an element carrying the looked-up key. -/
theorem find_key_eq {α : Type} (key : α → String) (k : String)
    (l : List α) (a : α)
    (h : l.find? (fun b => key b == k) = some a) : key a = k := by
  have := List.find?_some h
  simpa using this

/-- A successful lookup returns a member of the list. -/
theorem find_mem {α : Type} (key : α → String) (k : String)
    (l : List α) (a : α)
    (h : l.find? (fun b => key b == k) = some a) : a ∈ l :=
  List.mem_of_find?_eq_some h

/-! ### Claim theorems -/

/-- Helper for the interpolation claim: the lerp output always lies in the
closed interval spanned by its two endpoints, because the progress factor
is clamped to 0..1. -/
theorem lerp_between (a b t : ℚ) :
    min a b ≤ lerp a b t ∧ lerp a b t ≤ max a b := by
  have h0 : (0 : ℚ) ≤ max 0 (min 1 t) := le_max_left 0 _
  have h1 : max 0 (min 1 t) ≤ 1 := max_le (by norm_num) (min_le_left 1 t)
  unfold lerp
  constructor
  · rcases le_total a b with hab | hab
    · rw [min_eq_left hab]; nlinarith
    · rw [min_eq_right hab]; nlinarith
  · rcases le_total a b with hab | hab
    · rw [max_eq_right hab]; nlinarith
    · rw [max_eq_left hab]; nlinarith

/-- Claim C7: for every prior position, target position and progress value
fed to the interpolation formula, the output lies between prior and target
inclusive (progress is clamped to 0..1), and progress 1 yields exactly the
target; consequently a cursor displayed by the animate loop always lies
between its prev and target coordinates. -/
theorem lerp_clamped_bounds (start endVal t : ℚ) :
    (min start endVal ≤ lerp start endVal t ∧
      lerp start endVal t ≤ max start endVal) ∧
    lerp start endVal 1 = endVal ∧
    (∀ (c : RemoteCursor) (now : ℚ),
      (min c.prevX c.targetX ≤ (animateCursor now c).x ∧
        (animateCursor now c).x ≤ max c.prevX c.targetX) ∧
      (min c.prevY c.targetY ≤ (animateCursor now c).y ∧
        (animateCursor now c).y ≤ max c.prevY c.targetY)) := by
  refine ⟨lerp_between start endVal t, ?_, ?_⟩
  · unfold lerp
    rw [min_self, max_eq_right (by norm_num : (0 : ℚ) ≤ 1)]
    ring
  · intro c now
    exact ⟨lerp_between _ _ _, lerp_between _ _ _⟩

/-- Helper for the throttle claim: once lastCall holds the burst start t0,
every further call strictly inside the throttle window is dropped. -/
theorem throttleRun_drops_burst (limit t0 : ℕ) (hpos : 0 < limit) :
    ∀ ts : List ℕ, (∀ t ∈ ts, t < t0 + limit) →
      throttleRun limit t0 ts = []
  | [], _ => rfl
  | t :: ts, h => by
    have ht : t < t0 + limit := h t (List.mem_cons_self t ts)
    have hlt : ¬ (t - t0 ≥ limit) := by omega
    simp only [throttleRun, if_neg hlt]
    exact throttleRun_drops_burst limit t0 hpos ts
      (fun u hu => h u (List.mem_cons_of_mem t hu))

/-- Claim C4: for every burst of one or more calls to the throttled send
function all arriving strictly less than one throttle interval after the
first call, exactly the first call executes and every later call is
dropped (the accepted-call list is exactly the first time). The hypothesis
limit ≤ t0 reflects that the wall clock at the first call is at least one
interval past the initial lastCall value 0. -/
theorem throttle_burst_first_only (limit t0 : ℕ) (ts : List ℕ)
    (hpos : 0 < limit) (hstart : limit ≤ t0)
    (hburst : ∀ t ∈ ts, t < t0 + limit) :
    throttleAccepted limit (t0 :: ts) = [t0] := by
  have h0 : t0 - 0 ≥ limit := by omega
  simp only [throttleAccepted, throttleRun, if_pos h0]
  rw [throttleRun_drops_burst limit t0 hpos ts hburst]

/-- Witness for claim C4: a burst of three calls at 1000, 1010 and 1049 ms
against the 50 ms cursor throttle accepts only the first. -/
theorem throttle_burst_first_only_witness :
    0 < CURSOR_THROTTLE_MS ∧ CURSOR_THROTTLE_MS ≤ 1000 ∧
    1010 < 1000 + CURSOR_THROTTLE_MS ∧ 1049 < 1000 + CURSOR_THROTTLE_MS ∧
    throttleAccepted CURSOR_THROTTLE_MS [1000, 1010, 1049] = [1000] :=
  ⟨by decide, by decide, by decide, by decide,
    throttle_burst_first_only CURSOR_THROTTLE_MS 1000 [1010, 1049]
      (by decide) (by decide) (by decide)⟩

/-- Claim C6: the validation function is a pure predicate that accepts
exactly the payloads whose coordinates are numbers inside the 0..10000
rectangle and whose timestamp and sequence fields are numbers; in
particular x = -1 and x = 10001 are rejected while x = 0 and x = 10000 are
accepted, and a rejected payload causes no state change and no emission. -/
theorem validate_position_update :
    (∀ d : CursorMoveData,
      isValidCursorUpdate d = true ↔
        ((∃ x, d.x = some x ∧ 0 ≤ x ∧ x ≤ 10000) ∧
         (∃ y, d.y = some y ∧ 0 ≤ y ∧ y ≤ 10000) ∧
         d.ts ≠ none ∧ d.seq ≠ none)) ∧
    isValidCursorUpdate ⟨some (-1), some 0, some 1, some 1⟩ = false ∧
    isValidCursorUpdate ⟨some 10001, some 0, some 1, some 1⟩ = false ∧
    isValidCursorUpdate ⟨some 0, some 0, some 1, some 1⟩ = true ∧
    isValidCursorUpdate ⟨some 10000, some 0, some 1, some 1⟩ = true ∧
    (∀ (st : ServerState) (sid : String) (d : CursorMoveData) (now : ℕ),
      isValidCursorUpdate d = false →
        cursorMoveHandler st sid d now = (st, [])) := by
  refine ⟨?_, by decide, by decide, by decide, by decide, ?_⟩
  · intro d
    obtain ⟨dx, dy, dts, dseq⟩ := d
    cases dx <;> cases dy <;> cases dts <;> cases dseq <;>
      simp [isValidCursorUpdate, and_assoc]
  · intro st sid d now h
    simp [cursorMoveHandler, h]

/-- Witness for claim C6: an all-missing payload is invalid and the handler
leaves the initial state untouched and emits nothing. -/
theorem validate_position_update_witness :
    isValidCursorUpdate ⟨none, none, none, none⟩ = false ∧
    cursorMoveHandler initialState "A" ⟨none, none, none, none⟩ 0 =
      (initialState, []) :=
  ⟨rfl, validate_position_update.2.2.2.2.2 initialState "A"
    ⟨none, none, none, none⟩ 0 rfl⟩

/-- Claim C5: an accepted cursor_move updates the senders user record with
the delivered position, relays position, sequence number, timestamp,
display name and color unchanged in a single cursor_update, leaves every
other user record in place, and the emission reaches every other connected
user and never the sender. -/
theorem cursor_move_relay (st : ServerState) (sid : String)
    (d : CursorMoveData) (now : ℕ) (user : User) (x y ts seq : ℚ)
    (hx : d.x = some x) (hy : d.y = some y) (hts : d.ts = some ts)
    (hseq : d.seq = some seq)
    (hvalid : isValidCursorUpdate d = true)
    (huser : findUser st.users sid = some user) :
    findUser (cursorMoveHandler st sid d now).1.users sid =
      some { user with x := x, y := y, lastUpdate := now } ∧
    (∀ u ∈ st.users, u.id ≠ sid →
      u ∈ (cursorMoveHandler st sid d now).1.users) ∧
    (cursorMoveHandler st sid d now).1.objects = st.objects ∧
    (cursorMoveHandler st sid d now).2 =
      [⟨.toBroadcast, .cursorUpdate sid x y ts seq user.name user.color⟩] ∧
    sid ∉ recipients (cursorMoveHandler st sid d now).1 sid .toBroadcast ∧
    (∀ u ∈ st.users, u.id ≠ sid →
      u.id ∈ recipients (cursorMoveHandler st sid d now).1 sid .toBroadcast) := by
  obtain ⟨dx, dy, dts, dseq⟩ := d
  simp only [CursorMoveData.mk.injEq] at hx hy hts hseq
  subst hx; subst hy; subst hts; subst hseq
  have hred : cursorMoveHandler st sid ⟨some x, some y, some ts, some seq⟩ now =
      ({ st with
          users := updateUser st.users sid
            (fun u => { u with x := x, y := y, lastUpdate := now }) },
        [⟨.toBroadcast, .cursorUpdate sid x y ts seq user.name user.color⟩]) := by
    simp [cursorMoveHandler, hvalid, huser]
  rw [hred]
  have hids : (updateUser st.users sid
      (fun u => { u with x := x, y := y, lastUpdate := now })).map
        (fun u => u.id) = st.users.map (fun u => u.id) :=
    keys_after_update (fun u => u.id)
      (fun u => { u with x := x, y := y, lastUpdate := now }) sid
      (fun a ha => ha) st.users
  refine ⟨?_, ?_, rfl, rfl, ?_, ?_⟩
  · have h := find_after_update (fun u => u.id)
      (fun u => { u with x := x, y := y, lastUpdate := now }) sid
      (fun a ha => ha) st.users
    unfold findUser at huser
    unfold findUser updateUser
    rw [h, huser]
    rfl
  · intro u hu hne
    exact mem_after_update_of_ne (fun u => u.id) _ sid u st.users hu hne
  · simp [recipients]
  · intro u hu hne
    simp only [recipients, List.mem_filter, decide_eq_true_eq]
    refine ⟨?_, hne⟩
    simp only [userIds, hids]
    exact List.mem_map_of_mem (fun u => u.id) hu

/-- Witness for claim C5: user A sends a valid cursor_move in the demo
state; the relayed cursor_update carries position, timestamp, sequence,
name and color verbatim, and A is not among the recipients. -/
theorem cursor_move_relay_witness :
    (cursorMoveHandler demoFree "A" ⟨some 100, some 200, some 5, some 1⟩ 7).2 =
      [⟨.toBroadcast, .cursorUpdate "A" 100 200 5 1 "User A" "#FF6B6B"⟩] ∧
    "A" ∉ recipients
      (cursorMoveHandler demoFree "A" ⟨some 100, some 200, some 5, some 1⟩ 7).1
      "A" .toBroadcast :=
  ⟨(cursor_move_relay demoFree "A" ⟨some 100, some 200, some 5, some 1⟩ 7
      userA 100 200 5 1 rfl rfl rfl rfl (by decide) (by decide)).2.2.2.1,
   (cursor_move_relay demoFree "A" ⟨some 100, some 200, some 5, some 1⟩ 7
      userA 100 200 5 1 rfl rfl rfl rfl (by decide) (by decide)).2.2.2.2.1⟩

/-- Claim C2: a pickup of an unknown object delivers an object_reject with
the not-found reason to the requester alone and changes nothing; a pickup
of an unowned object stores the requester as owner and broadcasts the
object state to every connection, requester included; a pickup of an
object owned by a different connection delivers an object_reject with the
owned-by-another-user reason to the requester alone, changes nothing and
broadcasts nothing. -/
theorem pickup_arbitration (st : ServerState) (sid oid : String) :
    (findObj st.objects oid = none →
      pickupHandler st sid oid =
        (st, [⟨.toSelf, .objectReject oid "Object not found"⟩]) ∧
      recipients st sid .toSelf = [sid]) ∧
    (∀ obj, findObj st.objects oid = some obj → obj.ownerId = none →
      (pickupHandler st sid oid).1.users = st.users ∧
      findObj (pickupHandler st sid oid).1.objects oid =
        some { obj with ownerId := some sid } ∧
      (pickupHandler st sid oid).2 =
        [⟨.toAll, .objectUpdate oid obj.x obj.y (some sid)⟩] ∧
      recipients (pickupHandler st sid oid).1 sid .toAll = userIds st ∧
      (sid ∈ userIds st →
        sid ∈ recipients (pickupHandler st sid oid).1 sid .toAll)) ∧
    (∀ obj owner, findObj st.objects oid = some obj →
      obj.ownerId = some owner → owner ≠ sid →
      pickupHandler st sid oid =
        (st, [⟨.toSelf, .objectReject oid "Object is owned by another user"⟩]) ∧
      recipients st sid .toSelf = [sid]) := by
  refine ⟨?_, ?_, ?_⟩
  · intro hnone
    simp [pickupHandler, hnone, recipients]
  · intro obj hfind hown
    have hcond : ¬ (obj.ownerId ≠ none ∧ obj.ownerId ≠ some sid) := by
      simp [hown]
    have hred : pickupHandler st sid oid =
        ({ st with
            objects := updateObj st.objects oid
              (fun o => { o with ownerId := some sid }) },
          [⟨.toAll, .objectUpdate oid obj.x obj.y (some sid)⟩]) := by
      simp [pickupHandler, hfind, hcond]
    rw [hred]
    refine ⟨rfl, ?_, rfl, rfl, fun h => h⟩
    have h := find_after_update (fun o => o.id)
      (fun o => { o with ownerId := some sid }) oid
      (fun a ha => ha) st.objects
    unfold findObj at hfind
    unfold findObj updateObj
    rw [h, hfind]
    rfl
  · intro obj owner hfind hown hne
    have hcond : obj.ownerId ≠ none ∧ obj.ownerId ≠ some sid := by
      simp [hown, hne]
    simp [pickupHandler, hfind, hcond, recipients]

/-- Witness for claim C2: in the demo state with an unowned obj-1, a pickup
by A grants ownership and broadcasts the object state to all. -/
theorem pickup_arbitration_witness :
    findObj demoFree.objects "obj-1" = some objFree ∧
    objFree.ownerId = none ∧
    findObj (pickupHandler demoFree "A" "obj-1").1.objects "obj-1" =
      some { objFree with ownerId := some "A" } ∧
    (pickupHandler demoFree "A" "obj-1").2 =
      [⟨.toAll, .objectUpdate "obj-1" 200 200 (some "A")⟩] :=
  ⟨rfl, rfl,
    ((pickup_arbitration demoFree "A" "obj-1").2.1 objFree rfl rfl).2.1,
    ((pickup_arbitration demoFree "A" "obj-1").2.1 objFree rfl rfl).2.2.1⟩

/-- Claim C9 counterexample: in the demo state where A owns obj-1, an
object_move from non-owner B is not silent: the server unicasts an
object_reject back to B, so an event is sent to the offending client. -/
theorem move_nonowner_not_silent_cex :
    (objectMoveHandler demoOwned "B" "obj-1" 5 5).2 =
      [⟨.toSelf, .objectReject "obj-1" "You do not own this object"⟩] ∧
    (objectMoveHandler demoOwned "B" "obj-1" 5 5).2 ≠ [] := by
  refine ⟨by decide, by decide⟩

/-- Claim C9 amended: a drop whose requester does not own the named object
is silently ignored (no mutation, no emission at all); an object_move
whose requester does not own the object mutates nothing and broadcasts
nothing, but unicasts an object_reject with the does-not-own reason to the
requester alone. -/
theorem nonowner_move_drop (st : ServerState) (sid oid : String) (x y : ℚ)
    (obj : SharedObject) (hfind : findObj st.objects oid = some obj)
    (hown : obj.ownerId ≠ some sid) :
    dropHandler st sid oid x y = (st, []) ∧
    objectMoveHandler st sid oid x y =
      (st, [⟨.toSelf, .objectReject oid "You do not own this object"⟩]) ∧
    recipients st sid .toSelf = [sid] := by
  refine ⟨?_, ?_, rfl⟩
  · simp [dropHandler, hfind, hown]
  · simp [objectMoveHandler, hfind, hown]

/-- Witness for claim C9 amended: non-owner B moving and dropping obj-1 in
the demo state leaves the state unchanged; the move draws a unicast
rejection and the drop stays silent. -/
theorem nonowner_move_drop_witness :
    findObj demoOwned.objects "obj-1" = some objOwnedByA ∧
    objOwnedByA.ownerId ≠ some "B" ∧
    dropHandler demoOwned "B" "obj-1" 5 5 = (demoOwned, []) ∧
    objectMoveHandler demoOwned "B" "obj-1" 5 5 =
      (demoOwned, [⟨.toSelf, .objectReject "obj-1" "You do not own this object"⟩]) :=
  ⟨rfl, by decide,
    (nonowner_move_drop demoOwned "B" "obj-1" 5 5 objOwnedByA rfl (by decide)).1,
    (nonowner_move_drop demoOwned "B" "obj-1" 5 5 objOwnedByA rfl (by decide)).2.1⟩

/-- Claim C10 counterexample: in the demo state where A owns obj-1, a
re-pickup by A is granted and the server does broadcast an object_update
to all connections, so the no-op is not silent. -/
theorem repickup_broadcasts_cex :
    (pickupHandler demoOwned "A" "obj-1").2 =
      [⟨.toAll, .objectUpdate "obj-1" 200 200 (some "A")⟩] ∧
    (pickupHandler demoOwned "A" "obj-1").2 ≠ [] := by
  refine ⟨by decide, by decide⟩

/-- Claim C10 amended: a pickup from the requester who already owns the
object is granted (the owner stays the requester and the object is
otherwise unchanged) and an object_update carrying the identical state is
re-broadcast to all connections. -/
theorem repickup_granted_rebroadcast (st : ServerState) (sid oid : String)
    (obj : SharedObject) (hfind : findObj st.objects oid = some obj)
    (hown : obj.ownerId = some sid) :
    findObj (pickupHandler st sid oid).1.objects oid = some obj ∧
    (pickupHandler st sid oid).1.users = st.users ∧
    (pickupHandler st sid oid).2 =
      [⟨.toAll, .objectUpdate oid obj.x obj.y (some sid)⟩] ∧
    recipients (pickupHandler st sid oid).1 sid .toAll = userIds st := by
  have hcond : ¬ (obj.ownerId ≠ none ∧ obj.ownerId ≠ some sid) := by
    simp [hown]
  have hred : pickupHandler st sid oid =
      ({ st with
          objects := updateObj st.objects oid
            (fun o => { o with ownerId := some sid }) },
        [⟨.toAll, .objectUpdate oid obj.x obj.y (some sid)⟩]) := by
    simp [pickupHandler, hfind, hcond]
  rw [hred]
  refine ⟨?_, rfl, rfl, rfl⟩
  have h := find_after_update (fun o => o.id)
    (fun o => { o with ownerId := some sid }) oid
    (fun a ha => ha) st.objects
  unfold findObj at hfind
  unfold findObj updateObj
  rw [h, hfind]
  have : { obj with ownerId := some sid } = obj := by
    cases obj
    simp only [SharedObject.mk.injEq, and_true, true_and]
    simp only at hown
    exact hown.symm
  simp [this]

/-- Witness for claim C10 amended: A re-picking obj-1 it already owns
keeps the state and re-broadcasts the identical object_update. -/
theorem repickup_granted_rebroadcast_witness :
    findObj demoOwned.objects "obj-1" = some objOwnedByA ∧
    objOwnedByA.ownerId = some "A" ∧
    findObj (pickupHandler demoOwned "A" "obj-1").1.objects "obj-1" =
      some objOwnedByA ∧
    (pickupHandler demoOwned "A" "obj-1").2 =
      [⟨.toAll, .objectUpdate "obj-1" 200 200 (some "A")⟩] :=
  ⟨rfl, rfl,
    (repickup_granted_rebroadcast demoOwned "A" "obj-1" objOwnedByA rfl rfl).1,
    (repickup_granted_rebroadcast demoOwned "A" "obj-1" objOwnedByA rfl rfl).2.2.1⟩

/-- Helper: an object owned by the leaving socket appears released in the
output of the release loop, and its object_update emission is recorded. -/
theorem releaseOwned_released (sid : String) :
    ∀ l : List SharedObject, ∀ o ∈ l, o.ownerId = some sid →
      { o with ownerId := none } ∈ (releaseOwned sid l).1 ∧
      Emit.mk .toAll (.objectUpdate o.id o.x o.y none) ∈ (releaseOwned sid l).2
  | a :: l, o, ho, hown => by
    rcases List.mem_cons.1 ho with rfl | hin
    · simp only [releaseOwned, if_pos hown]
      exact ⟨List.mem_cons_self _ _, List.mem_cons_self _ _⟩
    · have ih := releaseOwned_released sid l o hin hown
      by_cases ha : a.ownerId = some sid
      · simp only [releaseOwned, if_pos ha]
        exact ⟨List.mem_cons_of_mem _ ih.1, List.mem_cons_of_mem _ ih.2⟩
      · simp only [releaseOwned, if_neg ha]
        exact ⟨List.mem_cons_of_mem _ ih.1, ih.2⟩

/-- Helper: an object not owned by the leaving socket passes through the
release loop unchanged. -/
theorem releaseOwned_other (sid : String) :
    ∀ l : List SharedObject, ∀ o ∈ l, o.ownerId ≠ some sid →
      o ∈ (releaseOwned sid l).1
  | a :: l, o, ho, hown => by
    rcases List.mem_cons.1 ho with rfl | hin
    · simp only [releaseOwned, if_neg hown]
      exact List.mem_cons_self _ _
    · have ih := releaseOwned_other sid l o hin hown
      by_cases ha : a.ownerId = some sid
      · simp only [releaseOwned, if_pos ha]
        exact List.mem_cons_of_mem _ ih
      · simp only [releaseOwned, if_neg ha]
        exact List.mem_cons_of_mem _ ih

/-- Helper: every emission of the release loop is an object_update, with
null owner, for some object of the input that the leaving socket owned. -/
theorem releaseOwned_emits_shape (sid : String) :
    ∀ l : List SharedObject, ∀ e ∈ (releaseOwned sid l).2,
      ∃ o ∈ l, o.ownerId = some sid ∧
        e = ⟨.toAll, .objectUpdate o.id o.x o.y none⟩
  | a :: l, e, he => by
    by_cases ha : a.ownerId = some sid
    · simp only [releaseOwned, if_pos ha] at he
      rcases List.mem_cons.1 he with rfl | hin
      · exact ⟨a, List.mem_cons_self _ _, ha, rfl⟩
      · obtain ⟨o, ho, hown, rfl⟩ := releaseOwned_emits_shape sid l e hin
        exact ⟨o, List.mem_cons_of_mem _ ho, hown, rfl⟩
    · simp only [releaseOwned, if_neg ha] at he
      obtain ⟨o, ho, hown, rfl⟩ := releaseOwned_emits_shape sid l e he
      exact ⟨o, List.mem_cons_of_mem _ ho, hown, rfl⟩

/-- Helper: the disconnect handler written out without let bindings. -/
theorem disconnectHandler_eq (st : ServerState) (sid : String) :
    disconnectHandler st sid =
      ({ users := st.users.filter (fun u => u.id ≠ sid),
         objects := (releaseOwned sid st.objects).1 },
       (releaseOwned sid st.objects).2 ++ [⟨.toBroadcast, .userLeft sid⟩]) :=
  rfl

/-- Claim C3: after a disconnect the leaving user record is gone and every
other user record survives; each object the leaving connection owned is
released to null owner with an object_update broadcast recorded; objects
owned by others are unchanged; the user_left delta comes after all the
object_update deltas; and the broadcasts reach exactly the remaining
connections. -/
theorem disconnect_cleanup (st : ServerState) (sid : String) :
    sid ∉ userIds (disconnectHandler st sid).1 ∧
    (∀ u ∈ st.users, u.id ≠ sid → u ∈ (disconnectHandler st sid).1.users) ∧
    (∀ o ∈ st.objects, o.ownerId = some sid →
      { o with ownerId := none } ∈ (disconnectHandler st sid).1.objects ∧
      Emit.mk .toAll (.objectUpdate o.id o.x o.y none) ∈
        (disconnectHandler st sid).2) ∧
    (∀ o ∈ st.objects, o.ownerId ≠ some sid →
      o ∈ (disconnectHandler st sid).1.objects) ∧
    (∃ pre, (disconnectHandler st sid).2 =
        pre ++ [⟨.toBroadcast, .userLeft sid⟩] ∧
      ∀ e ∈ pre, ∃ o ∈ st.objects, o.ownerId = some sid ∧
        e = ⟨.toAll, .objectUpdate o.id o.x o.y none⟩) ∧
    recipients (disconnectHandler st sid).1 sid .toAll =
      userIds (disconnectHandler st sid).1 ∧
    (∀ u ∈ st.users, u.id ≠ sid →
      u.id ∈ recipients (disconnectHandler st sid).1 sid .toAll ∧
      u.id ∈ recipients (disconnectHandler st sid).1 sid .toBroadcast) := by
  rw [disconnectHandler_eq]
  refine ⟨?_, ?_, ?_, ?_, ?_, rfl, ?_⟩
  · simp [userIds, List.mem_map, List.mem_filter]
  · intro u hu hne
    refine List.mem_filter.2 ⟨hu, ?_⟩
    simpa using hne
  · intro o ho hown
    have h := releaseOwned_released sid st.objects o ho hown
    exact ⟨h.1, List.mem_append_left _ h.2⟩
  · intro o ho hown
    exact releaseOwned_other sid st.objects o ho hown
  · exact ⟨(releaseOwned sid st.objects).2, rfl,
      releaseOwned_emits_shape sid st.objects⟩
  · intro u hu hne
    have hmem : u.id ∈ userIds
        (⟨st.users.filter (fun u => u.id ≠ sid),
          (releaseOwned sid st.objects).1⟩ : ServerState) := by
      simp only [userIds]
      refine List.mem_map_of_mem (fun v => v.id) (List.mem_filter.2 ⟨hu, ?_⟩)
      simpa using hne
    refine ⟨hmem, ?_⟩
    simp only [recipients, List.mem_filter, decide_eq_true_eq]
    exact ⟨hmem, hne⟩

/-- Witness for claim C3: A disconnects in the demo state while owning
obj-1; the released object and its broadcast are present, the user_left
delta is last, and remaining user B receives both. -/
theorem disconnect_cleanup_witness :
    objOwnedByA ∈ demoOwned.objects ∧
    objOwnedByA.ownerId = some "A" ∧
    ({ objOwnedByA with ownerId := none } ∈
        (disconnectHandler demoOwned "A").1.objects ∧
      Emit.mk .toAll (.objectUpdate "obj-1" 200 200 none) ∈
        (disconnectHandler demoOwned "A").2) ∧
    userB ∈ demoOwned.users ∧
    "A" ∉ userIds (disconnectHandler demoOwned "A").1 :=
  ⟨List.mem_cons_self _ _, rfl,
    (disconnect_cleanup demoOwned "A").2.2.1 objOwnedByA
      (List.mem_cons_self _ _) rfl,
    by decide,
    (disconnect_cleanup demoOwned "A").1⟩

/-- Claim C8 counterexample: a cursor_update for A carrying origin
timestamp 100 is processed at local time 200; the recorded interpolation
start time is the origin timestamp 100, not the local time of receipt 200,
so the claim that the arrival timestamp (local receipt time) is recorded
fails at this input. -/
theorem cursor_update_origin_ts_cex :
    findCursor (handleCursorUpdate [demoCursor] demoMsg 200) "A" =
      some { demoCursor with
             prevX := 120, prevY := 100, targetX := 200,
             targetY := 100, lastUpdateTime := 100 } ∧
    (100 : ℚ) ≠ 200 := by
  refine ⟨by decide, by decide⟩

/-- Claim C8 amended: on receiving a position delta for a remote user, a
first delta initializes both prior and target (and the displayed position)
to the delivered position; a later delta sets prior to the currently
displayed, already-interpolated position rather than the previous raw
target, sets target to the delivered position, and records as
interpolation start time the origin timestamp carried by the delta,
falling back to the local time of receipt only when that field is absent
or zero. -/
theorem cursor_update_tracking (cursors : List RemoteCursor)
    (m : CursorUpdateMsg) (now : ℚ) :
    (findCursor cursors m.id = none →
      handleCursorUpdate cursors m now =
        cursors ++
          [{ id := m.id, x := m.x, y := m.y, name := m.name,
             color := m.color, targetX := m.x, targetY := m.y,
             prevX := m.x, prevY := m.y,
             lastUpdateTime := tsOrNow m.ts now }]) ∧
    (∀ c, findCursor cursors m.id = some c →
      findCursor (handleCursorUpdate cursors m now) m.id =
        some { c with
               prevX := c.x, prevY := c.y, targetX := m.x,
               targetY := m.y, lastUpdateTime := tsOrNow m.ts now }) := by
  constructor
  · intro hnone
    simp [handleCursorUpdate, hnone]
  · intro c hc
    have hc' : List.find? (fun b => b.id == m.id) cursors = some c := hc
    have hkey : c.id = m.id := find_key_eq (fun b => b.id) m.id cursors c hc'
    simp only [handleCursorUpdate, hc]
    have h := find_after_update (fun b => b.id)
      (fun _ => { c with
        prevX := c.x, prevY := c.y, targetX := m.x,
        targetY := m.y, lastUpdateTime := tsOrNow m.ts now })
      m.id (fun a _ => hkey) cursors
    unfold findCursor updateCursor
    rw [h, hc']
    rfl

/-- Witness for claim C8 amended: the demo cursor, displayed at x 120
between prev 100 and target 150, receives the demo delta; prior becomes
the displayed 120, target becomes 200 and the recorded start time is the
origin timestamp 100. -/
theorem cursor_update_tracking_witness :
    findCursor [demoCursor] demoMsg.id = some demoCursor ∧
    findCursor (handleCursorUpdate [demoCursor] demoMsg 200) demoMsg.id =
      some { demoCursor with
             prevX := demoCursor.x, prevY := demoCursor.y,
             targetX := demoMsg.x, targetY := demoMsg.y,
             lastUpdateTime := tsOrNow demoMsg.ts 200 } :=
  ⟨rfl, (cursor_update_tracking [demoCursor] demoMsg 200).2 demoCursor rfl⟩

/-- Helper: an element of an in-place object update is either an original
element or the image of an original element under the update function. -/
theorem mem_updateObj_cases (l : List SharedObject) (oid : String)
    (f : SharedObject → SharedObject) (o' : SharedObject)
    (h : o' ∈ updateObj l oid f) :
    ∃ o ∈ l, o' = o ∨ o' = f o := by
  obtain ⟨o, ho, hco⟩ := List.mem_map.1 h
  by_cases hid : (o.id == oid) = true
  · rw [if_pos hid] at hco
    exact ⟨o, ho, Or.inr hco.symm⟩
  · rw [if_neg hid] at hco
    exact ⟨o, ho, Or.inl hco.symm⟩

/-- Helper: the startup state satisfies the ownership invariant. -/
theorem inv_init : Inv initialState := by
  constructor
  · simp [userIds, initialState]
  · intro o ho i hi
    simp only [initialState, initialObjects, List.mem_cons,
      List.not_mem_nil, or_false] at ho
    rcases ho with rfl | rfl | rfl <;> simp at hi

/-- Helper: an in-place user update whose function preserves the id of the
matched records preserves the ownership invariant. -/
theorem inv_users_update (st : ServerState) (sid : String) (f : User → User)
    (hf : ∀ u, u.id = sid → (f u).id = sid) (h : Inv st) :
    Inv { st with users := updateUser st.users sid f } := by
  obtain ⟨hnodup, hown⟩ := h
  have hkeys : (updateUser st.users sid f).map (fun u => u.id) =
      st.users.map (fun u => u.id) :=
    keys_after_update (fun u => u.id) f sid hf st.users
  constructor
  · show ((updateUser st.users sid f).map (fun u => u.id)).Nodup
    rw [hkeys]
    exact hnodup
  · intro o ho i hi
    show i ∈ (updateUser st.users sid f).map (fun u => u.id)
    rw [hkeys]
    exact hown o ho i hi

/-- Helper: an in-place object update whose function either keeps the
owner or installs a connected owner preserves the ownership invariant. -/
theorem inv_objects_update (st : ServerState) (oid : String)
    (f : SharedObject → SharedObject)
    (hf : ∀ o i, (f o).ownerId = some i →
      o.ownerId = some i ∨ i ∈ userIds st) (h : Inv st) :
    Inv { st with objects := updateObj st.objects oid f } := by
  obtain ⟨hnodup, hown⟩ := h
  refine ⟨hnodup, ?_⟩
  intro o' ho' i hi
  obtain ⟨o, ho, hcase⟩ := mem_updateObj_cases st.objects oid f o' ho'
  rcases hcase with h1 | h1
  · rw [h1] at hi
    exact hown o ho i hi
  · rw [h1] at hi
    rcases hf o i hi with hkeep | hconn
    · exact hown o ho i hkeep
    · exact hconn

/-- Helper: the release loop of the disconnect handler, as a map. -/
theorem releaseOwned_fst_eq (sid : String) :
    ∀ l : List SharedObject,
      (releaseOwned sid l).1 = l.map (fun o =>
        if o.ownerId = some sid then { o with ownerId := none } else o)
  | [] => rfl
  | a :: l => by
    by_cases ha : a.ownerId = some sid
    · simp only [releaseOwned, if_pos ha, List.map_cons,
        releaseOwned_fst_eq sid l]
    · simp only [releaseOwned, if_neg ha, List.map_cons,
        releaseOwned_fst_eq sid l]

/-- Helper: every server event preserves the ownership invariant, given
the socket.io side conditions on the event source. -/
theorem inv_step (st : ServerState) (e : ServerEvent)
    (h : Inv st) (he : eventOk st e) : Inv (serverStep st e).1 := by
  obtain ⟨hnodup, hown⟩ := h
  cases e with
  | connect sid color now =>
    simp only [serverStep]
    have hids : userIds (connectStep st sid color now) =
        userIds st ++ [sid] := by
      simp [connectStep, userIds]
    constructor
    · rw [hids, List.nodup_append]
      refine ⟨hnodup, List.nodup_singleton _, ?_⟩
      intro a ha hb
      rw [List.mem_singleton] at hb
      subst hb
      exact he ha
    · intro o ho i hi
      rw [hids]
      refine List.mem_append_left _ (hown o ho i hi)
  | join sid name =>
    simp only [serverStep]
    cases hfu : findUser st.users sid with
    | none =>
      simp only [joinStep, hfu]
      exact ⟨hnodup, hown⟩
    | some user =>
      have hfu' : List.find? (fun b => b.id == sid) st.users = some user := hfu
      have hid : user.id = sid :=
        find_key_eq (fun b => b.id) sid st.users user hfu'
      cases name with
      | none =>
        simp only [joinStep, hfu]
        exact inv_users_update st sid (fun _ => user)
          (fun a _ => hid) ⟨hnodup, hown⟩
      | some n =>
        simp only [joinStep, hfu]
        exact inv_users_update st sid (fun _ => { user with name := n })
          (fun a _ => hid) ⟨hnodup, hown⟩
  | cursorMove sid d now =>
    simp only [serverStep, cursorMoveHandler]
    by_cases hv : isValidCursorUpdate d = true
    · rw [if_pos hv]
      rcases d with ⟨dx, dy, dts, dseq⟩
      cases dx with
      | none => cases dy <;> cases dts <;> cases dseq <;> exact ⟨hnodup, hown⟩
      | some x =>
        cases dy with
        | none => cases dts <;> cases dseq <;> exact ⟨hnodup, hown⟩
        | some y =>
          cases dts with
          | none => cases dseq <;> exact ⟨hnodup, hown⟩
          | some ts =>
            cases dseq with
            | none => exact ⟨hnodup, hown⟩
            | some seq =>
              cases hfu : findUser st.users sid with
              | none => exact ⟨hnodup, hown⟩
              | some user =>
                exact inv_users_update st sid
                  (fun u => { u with x := x, y := y, lastUpdate := now })
                  (fun a ha => ha) ⟨hnodup, hown⟩
    · rw [if_neg hv]
      exact ⟨hnodup, hown⟩
  | pickup sid oid =>
    cases hfo : findObj st.objects oid with
    | none =>
      simp only [serverStep, pickupHandler, hfo]
      exact ⟨hnodup, hown⟩
    | some obj =>
      simp only [serverStep, pickupHandler, hfo]
      by_cases hc : obj.ownerId ≠ none ∧ obj.ownerId ≠ some sid
      · rw [if_pos hc]
        exact ⟨hnodup, hown⟩
      · rw [if_neg hc]
        refine inv_objects_update st oid
          (fun o => { o with ownerId := some sid }) ?_ ⟨hnodup, hown⟩
        intro o i hi
        have hsid : i = sid := by
          have : some sid = some i := hi
          injection this with hh
          exact hh.symm
        subst hsid
        exact Or.inr he
  | objectMove sid oid x y =>
    cases hfo : findObj st.objects oid with
    | none =>
      simp only [serverStep, objectMoveHandler, hfo]
      exact ⟨hnodup, hown⟩
    | some obj =>
      simp only [serverStep, objectMoveHandler, hfo]
      by_cases hc : obj.ownerId ≠ some sid
      · rw [if_pos hc]
        exact ⟨hnodup, hown⟩
      · rw [if_neg hc]
        exact inv_objects_update st oid (fun o => { o with x := x, y := y })
          (fun o i hi => Or.inl hi) ⟨hnodup, hown⟩
  | drop sid oid x y =>
    cases hfo : findObj st.objects oid with
    | none =>
      simp only [serverStep, dropHandler, hfo]
      exact ⟨hnodup, hown⟩
    | some obj =>
      simp only [serverStep, dropHandler, hfo]
      by_cases hc : obj.ownerId ≠ some sid
      · rw [if_pos hc]
        exact ⟨hnodup, hown⟩
      · rw [if_neg hc]
        refine inv_objects_update st oid
          (fun o => { o with x := x, y := y, ownerId := none }) ?_
          ⟨hnodup, hown⟩
        intro o i hi
        exact absurd hi (by simp)
  | disconnect sid =>
    simp only [serverStep, disconnectHandler_eq]
    constructor
    · show ((st.users.filter _).map (fun u => u.id)).Nodup
      exact List.Nodup.sublist
        ((List.filter_sublist st.users).map (fun u => u.id)) hnodup
    · intro o' ho' i hi
      rw [releaseOwned_fst_eq sid st.objects] at ho'
      obtain ⟨o, ho, hco⟩ := List.mem_map.1 ho'
      by_cases hosid : o.ownerId = some sid
      · rw [if_pos hosid] at hco
        subst hco
        exact absurd hi (by simp)
      · rw [if_neg hosid] at hco
        subst hco
        have hin : i ∈ userIds st := hown o ho i hi
        have hne : i ≠ sid := by
          intro hisid
          subst hisid
          exact hosid hi
        show i ∈ (st.users.filter _).map (fun u => u.id)
        obtain ⟨u, hu, hui⟩ := List.mem_map.1 hin
        refine List.mem_map.2 ⟨u, List.mem_filter.2 ⟨hu, ?_⟩, hui⟩
        subst hui
        simpa using hne
  | reset =>
    simp only [serverStep, resetStep]
    refine ⟨hnodup, ?_⟩
    intro o' ho' i hi
    obtain ⟨o, ho, hco⟩ := List.mem_map.1 ho'
    subst hco
    exact absurd hi (by simp)

/-- Helper: every reachable server state satisfies the ownership
invariant. -/
theorem reachable_inv (st : ServerState) (h : Reachable st) : Inv st := by
  induction h with
  | init => exact inv_init
  | step st e _ hok ih => exact inv_step st e ih hok

/-- Claim C1: in every reachable server state, each objects ownerId is
null or the id of exactly one connected user: at most one connection owns
a given object at any instant. -/
theorem ownership_exclusive (st : ServerState) (h : Reachable st) :
    ∀ o ∈ st.objects, o.ownerId = none ∨
      ∃ u, (u ∈ st.users ∧ o.ownerId = some u.id) ∧
        ∀ v, v ∈ st.users → o.ownerId = some v.id → v = u := by
  obtain ⟨hnodup, hown⟩ := reachable_inv st h
  intro o ho
  cases hoid : o.ownerId with
  | none => exact Or.inl rfl
  | some i =>
    refine Or.inr ?_
    have hin : i ∈ userIds st := hown o ho i hoid
    obtain ⟨u, hu, hui⟩ := List.mem_map.1 hin
    refine ⟨u, ⟨hu, by rw [hui]⟩, ?_⟩
    intro v hv hvid
    have hvi : v.id = i := by
      injection hvid with hh
      exact hh.symm
    exact List.inj_on_of_nodup_map hnodup hv hu (hvi.trans hui.symm)

/-- Witness for claim C1: the startup state is reachable and its first
object satisfies the exclusivity disjunction, here through its unowned
side since nobody is connected yet. -/
theorem ownership_exclusive_witness :
    objFree ∈ initialState.objects ∧ objFree.ownerId = none :=
  ⟨by decide, by
    rcases ownership_exclusive initialState Reachable.init objFree
      (by decide) with h | ⟨u, ⟨hu, _⟩, _⟩
    · exact h
    · exact absurd hu (by simp [initialState])⟩

end CursorTracker
